import Mathlib

/-!
# redis_lock: a shallow embedding of `demo.go`

The lock client talks to three collaborators: the store (`redis.Cmdable`), the
retry strategy and the Go runtime (timers, contexts, channels).  Each of them is
a record of state-passing functions over one world state `σ`; the functions of
`demo.go` are translated statement by statement on top of them.
-/

namespace RedisLock

/-! ## Values shared by every operation -/

/-- Go `time.Duration`: a signed number of nanoseconds. -/
abbrev Duration := Int

/-- Go `Duration.Milliseconds`: the duration as whole milliseconds, rounded toward zero. -/
def Duration.Milliseconds (d : Duration) : Int := Int.tdiv d 1000000

/-- Error values that `demo.go` tells apart: the sentinels of `redis`, `context` and of
the package itself, any other error, and an error wrapping another one. -/
inductive Error where
  | Nil -- redis.Nil
  | DeadlineExceeded -- context.DeadlineExceeded
  | Canceled -- context.Canceled
  | ErrLockNotHold
  | ErrFailedToPreemptLock
  | other (msg : String)
  | wrapped (msg : String) (inner : Error)
  deriving DecidableEq, Repr

/-- The chain walk of Go `errors.Is` on a non-nil error. -/
def Error.Is : Error → Error → Bool
  | Error.wrapped msg inner, target =>
      decide (Error.wrapped msg inner = target) || Error.Is inner target
  | e, target => decide (e = target)

/-- Go `errors.Is(err, target)`; a nil `err` matches nothing. -/
def errors.Is (err : Option Error) (target : Error) : Bool :=
  match err with
  | none => false
  | some e => e.Is target

/-- The three embedded Lua scripts, named as the package variables that hold them. -/
inductive Script where
  | luaUnlock
  | refreshLock
  | luaLock
  deriving DecidableEq, Repr

/-- An argument handed to `Eval` after the key list. -/
inductive Arg where
  | str (s : String)
  | int64 (i : Int)
  | duration (d : Duration)
  deriving DecidableEq, Repr

/-- The `*redis.Cmd` returned by `Eval`, seen through the two readers `demo.go` uses. -/
structure Cmd where
  Int64 : Int × Option Error
  Bool : Bool × Option Error

/-- The part of `redis.Cmdable` that `demo.go` calls.  `SetNX` is read through `Result()`. -/
structure Cmdable (σ : Type) where
  SetNX : String → String → Duration → σ → (Bool × Option Error) × σ
  Eval : Script → List String → List Arg → σ → Cmd × σ

/-- A 16-byte identifier as produced by `uuid.New()`. -/
structure UUID where
  byte : Fin 16 → Fin 256

/-- Go `hex.EncodeToString`: two lower-case digits per byte. -/
def hex.EncodeToString (bs : List (Fin 256)) : String :=
  String.mk (bs.flatMap fun b => [Nat.digitChar (b.val / 16), Nat.digitChar (b.val % 16)])

/-- The canonical text form `xxxxxxxx-xxxx-xxxx-xxxx-xxxxxxxxxxxx` of `UUID.String`. -/
def UUID.String (u : UUID) : String :=
  let b := List.ofFn u.byte
  hex.EncodeToString (b.take 4) ++ "-" ++ hex.EncodeToString ((b.drop 4).take 2) ++ "-" ++
    hex.EncodeToString ((b.drop 6).take 2) ++ "-" ++ hex.EncodeToString ((b.drop 8).take 2) ++
    "-" ++ hex.EncodeToString (b.drop 10)

/-! ## Channels -/

/-- A buffered channel of `struct{}`: only the number of queued items and whether it is
closed can be observed. -/
structure Chan where
  cap : Nat
  buf : Nat
  closed : Bool
  deriving DecidableEq, Repr

/-- Go `make(chan struct{}, n)`. -/
def Chan.make (n : Nat) : Chan := { cap := n, buf := 0, closed := false }

/-- What a send does when no other goroutine is receiving. -/
inductive SendResult where
  | sent (ch : Chan)
  | blocks
  | panics
  deriving DecidableEq, Repr

/-- Go `ch <- struct{}{}`: panics on a closed channel, blocks on a full one. -/
def Chan.send (ch : Chan) : SendResult :=
  if ch.closed then SendResult.panics
  else if ch.buf < ch.cap then SendResult.sent { ch with buf := ch.buf + 1 }
  else SendResult.blocks

/-- Go `close(ch)`: `none` is the panic on closing a closed channel. -/
def Chan.close (ch : Chan) : Option Chan :=
  if ch.closed then none else some { ch with closed := true }

/-- Taking one queued item off the channel. -/
def Chan.recv (ch : Chan) : Chan := { ch with buf := ch.buf - 1 }

/-! ## The lock handle and `Client.TryLock` -/

/-- The `Lock` struct.  Its `client` field is the `Cmdable` passed to every operation. -/
structure Lock where
  key : String
  value : String
  expiration : Duration
  unlock : Chan
  deriving DecidableEq, Repr

/-- Go `newLock`. -/
def newLock (key : String) (val : String) (expiration : Duration) : Lock :=
  { key := key, value := val, expiration := expiration, unlock := Chan.make 1 }

/-- Go `Client.TryLock`; `u` is the identifier drawn by `uuid.New()`. -/
def Client.TryLock {σ : Type} (c : Cmdable σ) (u : UUID) (key : String) (expiration : Duration)
    (s : σ) : (Option Lock × Option Error) × σ :=
  let value := u.String
  let r := c.SetNX key value expiration s
  match r.1.2 with
  | some err => ((none, some err), r.2)
  | none =>
    if !r.1.1 then ((none, some Error.ErrFailedToPreemptLock), r.2)
    else ((some (newLock key value expiration), none), r.2)

/-! ## Recording the calls made to the collaborators -/

/-- One call made to a collaborator. -/
inductive Call where
  | SetNX (key value : String) (expiration : Duration)
  | Eval (script : Script) (keys : List String) (args : List Arg)
  | Next
  | Sleep (d : Duration)
  | Timer (d : Duration)
  deriving DecidableEq, Repr

/-- The same store, with every call appended to a log kept beside its state. -/
def Cmdable.traced {σ : Type} (c : Cmdable σ) : Cmdable (σ × List Call) where
  SetNX key value expiration s :=
    ((c.SetNX key value expiration s.1).1,
      ((c.SetNX key value expiration s.1).2, s.2 ++ [Call.SetNX key value expiration]))
  Eval script keys args s :=
    ((c.Eval script keys args s.1).1,
      ((c.Eval script keys args s.1).2, s.2 ++ [Call.Eval script keys args]))

/-! ## `Lock.Refresh` and `Lock.Unlock` -/

/-- Go `Lock.Refresh`: one `Eval` of `refreshLock`, read through `Int64()`. -/
def Lock.Refresh {σ : Type} (c : Cmdable σ) (l : Lock) (s : σ) : Option Error × σ :=
  let r := c.Eval Script.refreshLock [l.key]
    [Arg.str l.value, Arg.int64 (Duration.Milliseconds l.expiration)] s
  let res := r.1.Int64.1
  let err := r.1.Int64.2
  if errors.Is err Error.Nil then (some Error.ErrLockNotHold, r.2)
  else if err ≠ none then (err, r.2)
  else if res ≠ 1 then (some Error.ErrLockNotHold, r.2)
  else (none, r.2)

/-- How a call ends: it returns, it panics, or it never gets past a channel operation. -/
inductive Outcome (α : Type) where
  | returned (a : α)
  | panicked
  | blocked
  deriving DecidableEq, Repr

/-- The value the body of `Lock.Unlock` hands to `return` for a reply `(res, err)`. -/
def Lock.Unlock.result (res : Int) (err : Option Error) : Option Error :=
  if errors.Is err Error.Nil then some Error.ErrLockNotHold
  else if err ≠ none then err
  else if res = 0 then some Error.ErrLockNotHold
  else none

/-- Go `Lock.Unlock`, run with no other goroutine receiving from `l.unlock`: the body
evaluates `luaUnlock` and picks the return value, then the deferred function sends on
`l.unlock` and closes it.  The handle comes back with the channel as the call left it. -/
def Lock.Unlock {σ : Type} (c : Cmdable σ) (l : Lock) (s : σ) :
    (Outcome (Option Error) × Lock) × σ :=
  let r := c.Eval Script.luaUnlock [l.key] [Arg.str l.value] s
  let ret := Lock.Unlock.result r.1.Int64.1 r.1.Int64.2
  match l.unlock.send with
  | SendResult.panics => ((Outcome.panicked, l), r.2)
  | SendResult.blocks => ((Outcome.blocked, l), r.2)
  | SendResult.sent ch =>
    match ch.close with
    | none => ((Outcome.panicked, { l with unlock := ch }), r.2)
    | some ch2 => ((Outcome.returned ret, { l with unlock := ch2 }), r.2)

/-! ## The store contract and an in-memory store that meets it -/

/-- The set-if-absent contract of `SetNX`, read through `get`, the live value of a key:
a held key refuses the call and nothing changes, a free key takes the value. -/
structure SetIfAbsent {σ : Type} (c : Cmdable σ) (get : σ → String → Option String) :
    Prop where
  held : ∀ s k v d w, get s k = some w →
    (c.SetNX k v d s).1 = (false, none) ∧ get (c.SetNX k v d s).2 = get s
  free : ∀ s k v d, get s k = none →
    (c.SetNX k v d s).1 = (true, none) ∧ get (c.SetNX k v d s).2 k = some v

/-- The compare-and-delete contract of `luaUnlock`, read through `get`. -/
structure CompareAndDelete {σ : Type} (c : Cmdable σ) (get : σ → String → Option String) :
    Prop where
  absent : ∀ s k tok, get s k = none →
    (c.Eval Script.luaUnlock [k] [Arg.str tok] s).1.Int64.2 = some Error.Nil ∧
      get (c.Eval Script.luaUnlock [k] [Arg.str tok] s).2 = get s
  mismatch : ∀ s k tok w, get s k = some w → w ≠ tok →
    (c.Eval Script.luaUnlock [k] [Arg.str tok] s).1.Int64 = (0, none) ∧
      get (c.Eval Script.luaUnlock [k] [Arg.str tok] s).2 = get s
  owned : ∀ s k tok, get s k = some tok →
    (c.Eval Script.luaUnlock [k] [Arg.str tok] s).1.Int64.2 = none ∧
      0 < (c.Eval Script.luaUnlock [k] [Arg.str tok] s).1.Int64.1 ∧
      get (c.Eval Script.luaUnlock [k] [Arg.str tok] s).2 k = none

/-- Modelled from the spec: the store collaborator of sections 4.1 and 6 (the Redis server
and the three scripts under scripts/lua are not among the sources).  An entry is a key,
the token stored under it and the lease it was last written with. -/
structure MemStore where
  entries : List (String × String × Int)
  deriving DecidableEq, Repr

/-- The token stored under a key, if any. -/
def MemStore.get (m : MemStore) (k : String) : Option String :=
  (m.entries.lookup k).map Prod.fst

/-- Modelled from the spec: Acquire sets the key to the token only if the key does not
exist, and reports whether the set happened. -/
def MemStore.Acquire (k tok : String) (lease : Int) (m : MemStore) : Bool × MemStore :=
  match m.get k with
  | some _ => (false, m)
  | none => (true, { entries := (k, tok, lease) :: m.entries })

/-- Modelled from the spec: CompareAndExtend resets the lease and returns 1 when the stored
value is the token, signals not found when the key is absent, returns 0 otherwise. -/
def MemStore.CompareAndExtend (k tok : String) (lease : Int) (m : MemStore) :
    (Int × Option Error) × MemStore :=
  match m.get k with
  | none => ((0, some Error.Nil), m)
  | some v =>
    if v = tok then ((1, none), { entries := (k, tok, lease) :: m.entries })
    else ((0, none), m)

/-- Modelled from the spec: CompareAndDelete deletes the key and returns a positive count
when the stored value is the token, signals not found when the key is absent, returns 0
otherwise. -/
def MemStore.CompareAndDelete (k tok : String) (m : MemStore) :
    (Int × Option Error) × MemStore :=
  match m.get k with
  | none => ((0, some Error.Nil), m)
  | some v =>
    if v = tok then ((1, none), { entries := m.entries.filter fun e => e.1 ≠ k })
    else ((0, none), m)

/-- A `*redis.Cmd` holding an integer reply or an error. -/
def Cmd.ofInt64 (r : Int × Option Error) : Cmd :=
  { Int64 := r, Bool := (decide (r.1 ≠ 0), r.2) }

/-- Modelled from the spec: the in-memory store behind the `Cmdable` interface. -/
def MemStore.client : Cmdable MemStore where
  SetNX key value expiration m :=
    (((MemStore.Acquire key value expiration m).1, none),
      (MemStore.Acquire key value expiration m).2)
  Eval script keys args m :=
    match script, keys, args with
    | Script.luaLock, [k], [Arg.str tok, Arg.duration d] =>
      (Cmd.ofInt64 (if (MemStore.Acquire k tok d m).1 then 1 else 0, none),
        (MemStore.Acquire k tok d m).2)
    | Script.refreshLock, [k], [Arg.str tok, Arg.int64 ms] =>
      (Cmd.ofInt64 (MemStore.CompareAndExtend k tok ms m).1,
        (MemStore.CompareAndExtend k tok ms m).2)
    | Script.luaUnlock, [k], [Arg.str tok] =>
      (Cmd.ofInt64 (MemStore.CompareAndDelete k tok m).1, (MemStore.CompareAndDelete k tok m).2)
    | _, _, _ => (Cmd.ofInt64 (0, some (Error.other "ERR wrong number of arguments")), m)

/-- The identifier with every byte zero, for concrete runs. -/
def UUID.zero : UUID := { byte := fun _ => 0 }

/-- The identifier with every byte one, for concrete runs. -/
def UUID.one : UUID := { byte := fun _ => 1 }

/-! ## `Lock`: the retrying acquisition -/

/-- The `RetryStrategy` interface: `Next` gives the next interval and whether to go on. -/
structure RetryStrategy (σ : Type) where
  Next : σ → (Duration × Bool) × σ

/-- What `Client.Lock` asks of the Go runtime and of the caller's `ctx`: `Sleep` is
`time.Sleep`; `Select d` is `timer.Reset(d)` followed by the `select`, and answers `true`
when the case `<-ctx.Done()` is the one taken, `false` when `<-timer.C` is; `Err` is
`ctx.Err()`. -/
structure Runtime (σ : Type) where
  Sleep : Duration → σ → σ
  Select : Duration → σ → Bool × σ
  Err : σ → Option Error

/-- The `for` loop of `Client.Lock`, with `value` the token drawn before it.  Each unit of
fuel pays for one pass; `none` means the fuel ran out while the loop was still going. -/
def Client.Lock.loop {σ : Type} (c : Cmdable σ) (rt : Runtime σ) (retry : RetryStrategy σ)
    (key : String) (expiration : Duration) (value : String) :
    Nat → σ → Option ((Option Lock × Option Error) × σ)
  | 0, _ => none
  | fuel + 1, s =>
    let r := c.Eval Script.luaLock [key] [Arg.str value, Arg.duration expiration] s
    let res := r.1.Bool.1
    let err := r.1.Bool.2
    if err ≠ none ∧ errors.Is err Error.DeadlineExceeded = false then some ((none, err), r.2)
    else if res then some ((some (newLock key value expiration), none), r.2)
    else
      let n := retry.Next r.2
      if !n.1.2 then some ((none, some Error.ErrFailedToPreemptLock), n.2)
      else
        let w := rt.Select n.1.1 (rt.Sleep n.1.1 n.2)
        if w.1 then some ((none, rt.Err w.2), w.2)
        else Client.Lock.loop c rt retry key expiration value fuel w.2

/-- Go `Client.Lock`.  The context built from `timeout` is dropped by the source (`_`), so
`timeout` reaches nothing. -/
def Client.Lock {σ : Type} (c : Cmdable σ) (rt : Runtime σ) (u : UUID) (key : String)
    (expiration : Duration) (retry : RetryStrategy σ) (_timeout : Duration) (fuel : Nat)
    (s : σ) : Option ((Option Lock × Option Error) × σ) :=
  Client.Lock.loop c rt retry key expiration u.String fuel s

/-- The same strategy, with every call logged. -/
def RetryStrategy.traced {σ : Type} (r : RetryStrategy σ) : RetryStrategy (σ × List Call) where
  Next s := ((r.Next s.1).1, ((r.Next s.1).2, s.2 ++ [Call.Next]))

/-- The same runtime, with every sleep and every timer wait logged. -/
def Runtime.traced {σ : Type} (rt : Runtime σ) : Runtime (σ × List Call) where
  Sleep d s := (rt.Sleep d s.1, s.2 ++ [Call.Sleep d])
  Select d s := ((rt.Select d s.1).1, ((rt.Select d s.1).2, s.2 ++ [Call.Timer d]))
  Err s := rt.Err s.1

/-- The acquisition attempt `Lock` makes for a key, a token and a lease. -/
def Call.acquire (key value : String) (expiration : Duration) : Call :=
  Call.Eval Script.luaLock [key] [Arg.str value, Arg.duration expiration]

/-- The calls of a run of `Lock` in which every attempt fails, the strategy returns the
intervals `ds` and then stops, and the context never ends. -/
def Call.rounds (key value : String) (expiration : Duration) (ds : List Duration) : List Call :=
  ds.flatMap (fun d => [Call.acquire key value expiration, Call.Next, Call.Sleep d, Call.Timer d])
    ++ [Call.acquire key value expiration, Call.Next]

/-- Whether a call is an `Eval`. -/
def Call.isEval : Call → Bool
  | Call.Eval _ _ _ => true
  | _ => false

/-- The time a call asks to wait: the argument of a `Sleep` or of a timer wait. -/
def Call.waited : Call → Duration
  | Call.Sleep d => d
  | Call.Timer d => d
  | _ => 0

/-- A run of `Lock` on a key that stays contended: while `Inv` holds every attempt answers
not acquired, the context does not end, and `left` counts the intervals the strategy will
still return before it stops. -/
structure Contended {σ : Type} (c : Cmdable σ) (rt : Runtime σ) (retry : RetryStrategy σ)
    (key value : String) (expiration : Duration) (Inv : σ → Prop) (left : σ → Nat) :
    Prop where
  eval : ∀ s, Inv s →
    (c.Eval Script.luaLock [key] [Arg.str value, Arg.duration expiration] s).1.Bool =
        (false, none) ∧
      Inv (c.Eval Script.luaLock [key] [Arg.str value, Arg.duration expiration] s).2 ∧
      left (c.Eval Script.luaLock [key] [Arg.str value, Arg.duration expiration] s).2 = left s
  next_more : ∀ s, Inv s → 0 < left s →
    (retry.Next s).1.2 = true ∧ Inv (retry.Next s).2 ∧ left (retry.Next s).2 + 1 = left s
  next_stop : ∀ s, Inv s → left s = 0 → (retry.Next s).1.2 = false
  sleep : ∀ d s, Inv s → Inv (rt.Sleep d s) ∧ left (rt.Sleep d s) = left s
  select : ∀ d s, Inv s →
    (rt.Select d s).1 = false ∧ Inv (rt.Select d s).2 ∧ left (rt.Select d s).2 = left s

/-! ## A simulated world for concrete runs -/

/-- A world with a virtual clock: the intervals the retry strategy will still return, the
current instant, the instant at which the caller's context ends (if it ever does) with the
error it then reports, and the time one round trip to the store takes. -/
structure Sim where
  intervals : List Duration
  now : Int
  doneAt : Option Int
  ctxErr : Error
  latency : Duration
  deriving DecidableEq, Repr

/-- A strategy that returns the listed intervals one by one and then stops. -/
def Sim.retry : RetryStrategy Sim where
  Next s :=
    match s.intervals with
    | [] => ((0, false), s)
    | d :: ds => ((d, true), { s with intervals := ds })

/-- Whether the context has ended by the instant `t`. -/
def Sim.endedBy (s : Sim) (t : Int) : Bool :=
  match s.doneAt with
  | some e => decide (e ≤ t)
  | none => false

/-- Sleeping and timer waits advance the clock; the `select` takes `<-ctx.Done()` when the
context ends no later than the timer fires. -/
def Sim.runtime : Runtime Sim where
  Sleep d s := { s with now := s.now + max d 0 }
  Select d s :=
    if s.endedBy (s.now + max d 0) then (true, { s with now := max s.now (s.doneAt.getD s.now) })
    else (false, { s with now := s.now + max d 0 })
  Err s := if s.endedBy s.now then some s.ctxErr else none

/-- A store on which every key is held by someone else.  A call takes `latency`; one that
is still running when the context ends is answered with the context's error. -/
def Sim.contended : Cmdable Sim where
  SetNX _ _ _ s :=
    if s.endedBy (s.now + s.latency) then
      ((false, some s.ctxErr), { s with now := max s.now (s.doneAt.getD s.now) })
    else ((false, none), { s with now := s.now + s.latency })
  Eval _ _ _ s :=
    if s.endedBy (s.now + s.latency) then
      (Cmd.ofInt64 (0, some s.ctxErr), { s with now := max s.now (s.doneAt.getD s.now) })
    else (Cmd.ofInt64 (0, none), { s with now := s.now + s.latency })

/-- A store that gives the same reply to every call, as a mock set up with one canned
result. -/
def Mock.client {σ : Type} (reply : Cmd) : Cmdable σ where
  SetNX _ _ _ s := (reply.Bool, s)
  Eval _ _ _ s := (reply, s)

/-! ## `Lock.AutoRefresh` -/

/-- The case of the `select` in `Lock.AutoRefresh` that is taken next: `<-ch`, `<-ticker.C` or
`<-l.unlock`. -/
inductive Case where
  | retry
  | tick
  | stop
  deriving DecidableEq, Repr

/-- The deferred `close(ch)` of `Lock.AutoRefresh`, run when the loop returns. -/
def Lock.AutoRefresh.closed (ch : Chan) : Chan := (ch.close).getD ch

/-- One pass of the two refreshing cases of `Lock.AutoRefresh` after the receive: call
`Refresh`; on a deadline-exceeded error send on `ch` and go round again, on any other error
return it, otherwise go round again.  `again` is the rest of the loop. -/
def Lock.AutoRefresh.body {σ : Type} (c : Cmdable σ) (l : Lock) (ch : Chan) (s : σ)
    (again : Chan → σ → (Option (Outcome (Option Error)) × Chan) × σ) :
    (Option (Outcome (Option Error)) × Chan) × σ :=
  let r := Lock.Refresh c l s
  if errors.Is r.1 Error.DeadlineExceeded then
    match ch.send with
    | SendResult.sent ch2 => again ch2 r.2
    | SendResult.blocks => ((some Outcome.blocked, ch), r.2)
    | SendResult.panics => ((some Outcome.panicked, ch), r.2)
  else if r.1 ≠ none then ((some (Outcome.returned r.1), Lock.AutoRefresh.closed ch), r.2)
  else again ch r.2

/-- The `for`/`select` loop of `Lock.AutoRefresh` run over the cases the scheduler takes, in
order.  `ch` is the loop's own capacity-one channel; a `retry` offered while `ch` is empty
cannot be taken and is passed over.  `none` means the loop is back at the `select` with
nothing more scheduled. -/
def Lock.AutoRefresh.loop {σ : Type} (c : Cmdable σ) (l : Lock) :
    List Case → Chan → σ → (Option (Outcome (Option Error)) × Chan) × σ
  | [], ch, s => ((none, ch), s)
  | Case.retry :: rest, ch, s =>
    if ch.buf = 0 then Lock.AutoRefresh.loop c l rest ch s
    else Lock.AutoRefresh.body c l ch.recv s (Lock.AutoRefresh.loop c l rest)
  | Case.tick :: rest, ch, s => Lock.AutoRefresh.body c l ch s (Lock.AutoRefresh.loop c l rest)
  | Case.stop :: _, ch, s => ((some (Outcome.returned none), Lock.AutoRefresh.closed ch), s)

/-- Go `Lock.AutoRefresh`: `time.NewTicker` panics on a non-positive interval; otherwise the
loop starts with a fresh `ch := make(chan struct{}, 1)`.  `timeout` bounds each `Refresh`
and acts through the store's replies. -/
def Lock.AutoRefresh {σ : Type} (c : Cmdable σ) (l : Lock) (interval _timeout : Duration)
    (schedule : List Case) (s : σ) : (Option (Outcome (Option Error)) × Chan) × σ :=
  if interval ≤ 0 then ((some Outcome.panicked, Chan.make 1), s)
  else Lock.AutoRefresh.loop c l schedule (Chan.make 1) s

/-! ## `Client.SingleFlightLock` -/

/-- What one pass of the loop of `Client.SingleFlightLock` meets: `leader` when `DoChan` ran this
caller's closure and `resCh` delivered its result; `shared` when a call for the key was
already in flight, the closure was not run and `resCh` delivered that call's result;
`done` when `<-ctx.Done()` was taken first. -/
inductive Flight where
  | leader
  | shared (val : Option Lock) (err : Option Error)
  | done
  deriving DecidableEq, Repr

/-- Whether a pass received another caller's result. -/
def Flight.isShared : Flight → Bool
  | Flight.shared _ _ => true
  | _ => false

/-- Go `Client.SingleFlightLock` over the passes its loop meets, in order; `none` means the
loop is still going when they are used up (or the fuel of its own `Lock` ran out). -/
def Client.SingleFlightLock {σ : Type} (c : Cmdable σ) (rt : Runtime σ) (u : UUID) (key : String)
    (expiration : Duration) (retry : RetryStrategy σ) (timeout : Duration) (fuel : Nat) :
    List Flight → σ → Option ((Option RedisLock.Lock × Option Error) × σ)
  | [], _ => none
  | Flight.leader :: _, s =>
    match Client.Lock c rt u key expiration retry timeout fuel s with
    | none => none
    | some res =>
      if res.1.2 ≠ none then some ((none, res.1.2), res.2)
      else some ((res.1.1, none), res.2)
  | Flight.shared _ _ :: rest, s =>
    Client.SingleFlightLock c rt u key expiration retry timeout fuel rest s
  | Flight.done :: _, s => some ((none, rt.Err s), s)

/-! ## A double release, step by step -/

/-- TryLock for locked-key on the empty in-memory store. -/
def Replay.acquired : (Option Lock × Option Error) × MemStore :=
  Client.TryLock MemStore.client UUID.zero "locked-key" 60000000000 { entries := [] }

/-- The handle that acquisition hands out. -/
def Replay.handle : Lock := newLock "locked-key" UUID.zero.String 60000000000

/-- The first Unlock of that handle. -/
def Replay.first : (Outcome (Option Error) × Lock) × MemStore :=
  Lock.Unlock MemStore.client Replay.handle Replay.acquired.2

/-- The second Unlock, on the handle and the store as the first one left them. -/
def Replay.second : (Outcome (Option Error) × Lock) × MemStore :=
  Lock.Unlock MemStore.client Replay.first.1.2 Replay.first.2

/-! ## A stale handle released twice -/

/-- A handle whose lease ran out; the key has since been reacquired under another token. -/
def Stale.handle : Lock := newLock "k" "old-token" 60000000000

/-- The first Unlock of the stale handle, on the store that holds the new token. -/
def Stale.first : (Outcome (Option Error) × Lock) × MemStore :=
  Lock.Unlock MemStore.client Stale.handle { entries := [("k", "new-token", 60000000000)] }

/-- A second Unlock of the stale handle, as the first one left it. -/
def Stale.second : (Outcome (Option Error) × Lock) × MemStore :=
  Lock.Unlock MemStore.client Stale.first.1.2 Stale.first.2

/-! ## Facts about tokens -/

theorem uuid_String_ne_empty (u : UUID) : u.String ≠ "" := by
  intro h
  have hlen := congrArg String.length h
  have hdash : ("-" : String).length = 1 := rfl
  have hnil : ("" : String).length = 0 := rfl
  simp only [UUID.String, String.length_append, hdash, hnil] at hlen
  omega

/-! ## Claims -/

/-- C1: Client.TryLock makes exactly one set-if-absent call for the requested key and lease, and
its result follows the reply of that call alone: an error reply gives no handle and that
error, a not-set reply gives no handle and ErrFailedToPreemptLock, a set reply gives no
error and a handle with the requested key and lease whose token is non-empty and is the
value that was sent. -/
theorem TryLock_contract {σ : Type} (c : Cmdable σ) (u : UUID) (key : String)
    (expiration : Duration) (s : σ) (log : List Call) :
    (Client.TryLock c.traced u key expiration (s, log)).2 =
        ((c.SetNX key u.String expiration s).2, log ++ [Call.SetNX key u.String expiration]) ∧
      (Client.TryLock c u key expiration s).2 = (c.SetNX key u.String expiration s).2 ∧
      (∀ err, (c.SetNX key u.String expiration s).1.2 = some err →
        (Client.TryLock c u key expiration s).1 = (none, some err)) ∧
      ((c.SetNX key u.String expiration s).1 = (false, none) →
        (Client.TryLock c u key expiration s).1 = (none, some Error.ErrFailedToPreemptLock)) ∧
      ((c.SetNX key u.String expiration s).1 = (true, none) →
        ∃ l : Lock, (Client.TryLock c u key expiration s).1 = (some l, none) ∧ l.key = key ∧
          l.expiration = expiration ∧ l.value ≠ "" ∧ l.value = u.String) := by
  refine ⟨?_, ?_, ?_, ?_, ?_⟩
  · simp only [Client.TryLock, Cmdable.traced]
    split <;> [rfl; (split <;> rfl)]
  · simp only [Client.TryLock]
    split <;> [rfl; (split <;> rfl)]
  · intro err h
    simp [Client.TryLock, h]
  · intro h
    simp [Client.TryLock, h]
  · intro h
    exact ⟨newLock key u.String expiration, by simp [Client.TryLock, h], rfl, rfl,
      uuid_String_ne_empty u, rfl⟩


/-- C1 on the three replies of the unit test: set, a network error, and not set. -/
theorem TryLock_contract_witness :
    (∃ l : Lock,
        (Client.TryLock (Mock.client (Cmd.ofInt64 (1, none)) : Cmdable Unit) UUID.zero
          "locked-key" 60000000000 ()).1 = (some l, none) ∧ l.key = "locked-key" ∧
          l.expiration = 60000000000 ∧ l.value ≠ "" ∧ l.value = UUID.zero.String) ∧
      (Client.TryLock
          (Mock.client (Cmd.ofInt64 (0, some (Error.other "network error"))) : Cmdable Unit)
          UUID.zero "network-key" 60000000000 ()).1 =
        (none, some (Error.other "network error")) ∧
      (Client.TryLock (Mock.client (Cmd.ofInt64 (0, none)) : Cmdable Unit) UUID.zero
          "failed-key" 60000000000 ()).1 = (none, some Error.ErrFailedToPreemptLock) :=
  ⟨(TryLock_contract (Mock.client (Cmd.ofInt64 (1, none)) : Cmdable Unit) UUID.zero
      "locked-key" 60000000000 () []).2.2.2.2 rfl,
    (TryLock_contract
      (Mock.client (Cmd.ofInt64 (0, some (Error.other "network error"))) : Cmdable Unit)
      UUID.zero "network-key" 60000000000 () []).2.2.1 (Error.other "network error") rfl,
    (TryLock_contract (Mock.client (Cmd.ofInt64 (0, none)) : Cmdable Unit) UUID.zero
      "failed-key" 60000000000 () []).2.2.2.1 rfl⟩

/-! ## The in-memory store meets the store contract -/

theorem lookup_filter_ne (k : String) (es : List (String × String × Int)) :
    (es.filter fun e => e.1 ≠ k).lookup k = none := by
  induction es with
  | nil => rfl
  | cons e es ih =>
    by_cases h : e.1 = k
    · rw [List.filter_cons_of_neg (by simp [h])]
      exact ih
    · rw [List.filter_cons_of_pos (by simp [h])]
      have hk : (k == e.1) = false := by
        simp only [beq_eq_false_iff_ne, ne_eq]
        exact fun h2 => h h2.symm
      obtain ⟨a, b⟩ := e
      simp only [List.lookup, hk]
      exact ih

theorem memStore_setIfAbsent : SetIfAbsent MemStore.client MemStore.get where
  held := by
    intro s k v d w h
    simp only [MemStore.client, MemStore.Acquire, h]
    exact ⟨by trivial, by trivial⟩
  free := by
    intro s k v d h
    simp only [MemStore.client, MemStore.Acquire, h]
    refine ⟨by trivial, ?_⟩
    simp [MemStore.get, List.lookup]

theorem memStore_compareAndDelete : CompareAndDelete MemStore.client MemStore.get where
  absent := by
    intro s k tok h
    simp only [MemStore.client, MemStore.CompareAndDelete, Cmd.ofInt64, h]
    exact ⟨by trivial, by trivial⟩
  mismatch := by
    intro s k tok w h hne
    simp only [MemStore.client, MemStore.CompareAndDelete, Cmd.ofInt64, h, if_neg hne]
    exact ⟨by trivial, by trivial⟩
  owned := by
    intro s k tok h
    simp only [MemStore.client, MemStore.CompareAndDelete, Cmd.ofInt64, h, if_true]
    refine ⟨by trivial, by decide, ?_⟩
    simp only [MemStore.get, lookup_filter_ne]
    rfl

/-- C2: over a store that obeys the set-if-absent contract, Client.TryLock on a key that holds a
live value fails with ErrFailedToPreemptLock and leaves the store as it was; Client.TryLock on an
absent key succeeds, the key then holds the handle's token, and a further Client.TryLock on that
key fails and leaves that token in place. -/
theorem TryLock_set_if_absent {σ : Type} (c : Cmdable σ) (get : σ → String → Option String)
    (h : SetIfAbsent c get) (u : UUID) (key : String) (expiration : Duration) (s : σ) :
    (∀ w, get s key = some w →
        (Client.TryLock c u key expiration s).1 = (none, some Error.ErrFailedToPreemptLock) ∧
          get (Client.TryLock c u key expiration s).2 = get s) ∧
      (get s key = none →
        ∃ l : Lock, (Client.TryLock c u key expiration s).1 = (some l, none) ∧
          l.value = u.String ∧
          get (Client.TryLock c u key expiration s).2 key = some l.value ∧
          ∀ (u2 : UUID) (lease2 : Duration),
            (Client.TryLock c u2 key lease2 (Client.TryLock c u key expiration s).2).1 =
                (none, some Error.ErrFailedToPreemptLock) ∧
              get (Client.TryLock c u2 key lease2 (Client.TryLock c u key expiration s).2).2 key =
                some l.value) := by
  have held : ∀ (u1 : UUID) (d : Duration) (s1 : σ) (w : String), get s1 key = some w →
      (Client.TryLock c u1 key d s1).1 = (none, some Error.ErrFailedToPreemptLock) ∧
        get (Client.TryLock c u1 key d s1).2 = get s1 := by
    intro u1 d s1 w hw
    obtain ⟨h1, h2⟩ := h.held s1 key u1.String d w hw
    have h3 : (c.SetNX key u1.String d s1).1.2 = none := by rw [h1]
    have h4 : (c.SetNX key u1.String d s1).1.1 = false := by rw [h1]
    simp only [Client.TryLock, h3, h4]
    exact ⟨by trivial, h2⟩
  refine ⟨fun w hw => held u expiration s w hw, ?_⟩
  intro hfree
  obtain ⟨h1, h2⟩ := h.free s key u.String expiration hfree
  have h3 : (c.SetNX key u.String expiration s).1.2 = none := by rw [h1]
  have h4 : (c.SetNX key u.String expiration s).1.1 = true := by rw [h1]
  have hres : Client.TryLock c u key expiration s =
      ((some (newLock key u.String expiration), none), (c.SetNX key u.String expiration s).2) := by
    simp only [Client.TryLock, h3, h4]
    trivial
  refine ⟨newLock key u.String expiration, by rw [hres], rfl, ?_, ?_⟩
  · rw [hres]
    exact h2
  · intro u2 lease2
    rw [hres]
    obtain ⟨h5, h6⟩ := held u2 lease2 (c.SetNX key u.String expiration s).2 u.String h2
    exact ⟨h5, by rw [h6]; exact h2⟩

/-- C2 on the in-memory store, for the two keys of the end-to-end test: failed-key already
holds the value 123 and keeps it, locked-key is absent and ends up holding the token. -/
theorem TryLock_set_if_absent_witness :
    SetIfAbsent MemStore.client MemStore.get ∧
      ((Client.TryLock MemStore.client UUID.zero "failed-key" 60000000000
            { entries := [("failed-key", "123", 60000000000)] }).1 =
          (none, some Error.ErrFailedToPreemptLock) ∧
        MemStore.get (Client.TryLock MemStore.client UUID.zero "failed-key" 60000000000
            { entries := [("failed-key", "123", 60000000000)] }).2 =
          MemStore.get { entries := [("failed-key", "123", 60000000000)] }) ∧
      (∃ l : Lock,
        (Client.TryLock MemStore.client UUID.zero "locked-key" 60000000000
            { entries := [] }).1 = (some l, none) ∧
          l.value = UUID.zero.String ∧
          MemStore.get (Client.TryLock MemStore.client UUID.zero "locked-key" 60000000000
            { entries := [] }).2 "locked-key" = some l.value ∧
          ∀ (u2 : UUID) (lease2 : Duration),
            (Client.TryLock MemStore.client u2 "locked-key" lease2
                (Client.TryLock MemStore.client UUID.zero "locked-key" 60000000000
                  { entries := [] }).2).1 = (none, some Error.ErrFailedToPreemptLock) ∧
              MemStore.get (Client.TryLock MemStore.client u2 "locked-key" lease2
                (Client.TryLock MemStore.client UUID.zero "locked-key" 60000000000
                  { entries := [] }).2).2 "locked-key" = some l.value) :=
  ⟨memStore_setIfAbsent,
    (TryLock_set_if_absent MemStore.client MemStore.get memStore_setIfAbsent UUID.zero
      "failed-key" 60000000000 { entries := [("failed-key", "123", 60000000000)] }).1
        "123" (by decide),
    (TryLock_set_if_absent MemStore.client MemStore.get memStore_setIfAbsent UUID.zero
      "locked-key" 60000000000 { entries := [] }).2 (by decide)⟩

/-- C3 as amended: on every handle whose stop channel is still open and has room, which
is every handle until Unlock has been called on it, Lock.Unlock evaluates the
compare-and-delete script once with the handle's key and token and returns:
ErrLockNotHold for a redis.Nil reply and for a reply of 0, any other error unchanged, and
no error exactly when the call gave no error and a count other than 0, so in particular
for a positive count.  Over a store obeying the compare-and-delete contract, such a handle
whose token differs from the stored value gets ErrLockNotHold and the stored entries are
left as they were. -/
theorem Unlock_contract {σ : Type} (c : Cmdable σ) (l : Lock) (s : σ) (log : List Call)
    (hopen : l.unlock.closed = false) (hroom : l.unlock.buf < l.unlock.cap) :
    (Lock.Unlock c.traced l (s, log)).2 =
        ((c.Eval Script.luaUnlock [l.key] [Arg.str l.value] s).2,
          log ++ [Call.Eval Script.luaUnlock [l.key] [Arg.str l.value]]) ∧
      (Lock.Unlock c l s).2 = (c.Eval Script.luaUnlock [l.key] [Arg.str l.value] s).2 ∧
      (errors.Is (c.Eval Script.luaUnlock [l.key] [Arg.str l.value] s).1.Int64.2 Error.Nil =
          true →
        (Lock.Unlock c l s).1.1 = Outcome.returned (some Error.ErrLockNotHold)) ∧
      ((c.Eval Script.luaUnlock [l.key] [Arg.str l.value] s).1.Int64 = (0, none) →
        (Lock.Unlock c l s).1.1 = Outcome.returned (some Error.ErrLockNotHold)) ∧
      (∀ e, (c.Eval Script.luaUnlock [l.key] [Arg.str l.value] s).1.Int64.2 = some e →
        errors.Is (some e) Error.Nil = false →
        (Lock.Unlock c l s).1.1 = Outcome.returned (some e)) ∧
      ((Lock.Unlock c l s).1.1 = Outcome.returned none ↔
        (c.Eval Script.luaUnlock [l.key] [Arg.str l.value] s).1.Int64.2 = none ∧
          (c.Eval Script.luaUnlock [l.key] [Arg.str l.value] s).1.Int64.1 ≠ 0) ∧
      ((c.Eval Script.luaUnlock [l.key] [Arg.str l.value] s).1.Int64.2 = none →
        0 < (c.Eval Script.luaUnlock [l.key] [Arg.str l.value] s).1.Int64.1 →
        (Lock.Unlock c l s).1.1 = Outcome.returned none) ∧
      (∀ get : σ → String → Option String, CompareAndDelete c get →
        ∀ w, get s l.key = some w → w ≠ l.value →
          (Lock.Unlock c l s).1.1 = Outcome.returned (some Error.ErrLockNotHold) ∧
            get (Lock.Unlock c l s).2 = get s) := by
  have hsend : l.unlock.send = SendResult.sent { l.unlock with buf := l.unlock.buf + 1 } := by
    simp [Chan.send, hopen, hroom]
  have hclose : Chan.close { l.unlock with buf := l.unlock.buf + 1 } =
      some { cap := l.unlock.cap, buf := l.unlock.buf + 1, closed := true } := by
    simp [Chan.close, hopen]
  have hout : (Lock.Unlock c l s).1.1 =
      Outcome.returned (Lock.Unlock.result
        (c.Eval Script.luaUnlock [l.key] [Arg.str l.value] s).1.Int64.1
        (c.Eval Script.luaUnlock [l.key] [Arg.str l.value] s).1.Int64.2) := by
    simp only [Lock.Unlock, hsend, hclose]
  have hst : (Lock.Unlock c l s).2 =
      (c.Eval Script.luaUnlock [l.key] [Arg.str l.value] s).2 := by
    simp only [Lock.Unlock, hsend, hclose]
  have htr : (Lock.Unlock c.traced l (s, log)).2 =
      ((c.Eval Script.luaUnlock [l.key] [Arg.str l.value] s).2,
        log ++ [Call.Eval Script.luaUnlock [l.key] [Arg.str l.value]]) := by
    simp only [Lock.Unlock, hsend, hclose, Cmdable.traced]
  have hzero : (c.Eval Script.luaUnlock [l.key] [Arg.str l.value] s).1.Int64 = (0, none) →
      (Lock.Unlock c l s).1.1 = Outcome.returned (some Error.ErrLockNotHold) := by
    intro h
    rw [hout, h]
    rfl
  have hiff : (Lock.Unlock c l s).1.1 = Outcome.returned none ↔
      (c.Eval Script.luaUnlock [l.key] [Arg.str l.value] s).1.Int64.2 = none ∧
        (c.Eval Script.luaUnlock [l.key] [Arg.str l.value] s).1.Int64.1 ≠ 0 := by
    rw [hout]
    generalize (c.Eval Script.luaUnlock [l.key] [Arg.str l.value] s).1.Int64.1 = res
    generalize (c.Eval Script.luaUnlock [l.key] [Arg.str l.value] s).1.Int64.2 = err
    cases err with
    | none => by_cases h0 : res = 0 <;> simp [Lock.Unlock.result, errors.Is, h0]
    | some e => by_cases hn : e.Is Error.Nil = true <;> simp [Lock.Unlock.result, errors.Is, hn]
  refine ⟨htr, hst, ?_, hzero, ?_, hiff, ?_, ?_⟩
  · intro h
    rw [hout]
    simp [Lock.Unlock.result, h]
  · intro e he hn
    rw [hout, he]
    simp [Lock.Unlock.result, hn]
  · intro h1 h2
    exact hiff.mpr ⟨h1, by omega⟩
  · intro get hc w hw hne
    obtain ⟨h1, h2⟩ := hc.mismatch s l.key l.value w hw hne
    exact ⟨hzero h1, by rw [hst]; exact h2⟩

/-- C3 as amended, on the in-memory store: the key was reacquired under another token, the
old handle, not yet unlocked, is told ErrLockNotHold and the new holder's entry stays. -/
theorem Unlock_contract_witness :
    (newLock "k" "old-token" 60000000000).unlock.closed = false ∧
      (newLock "k" "old-token" 60000000000).unlock.buf <
        (newLock "k" "old-token" 60000000000).unlock.cap ∧
      CompareAndDelete MemStore.client MemStore.get ∧
      (Lock.Unlock MemStore.client (newLock "k" "old-token" 60000000000)
          { entries := [("k", "new-token", 60000000000)] }).1.1 =
        Outcome.returned (some Error.ErrLockNotHold) ∧
      MemStore.get (Lock.Unlock MemStore.client (newLock "k" "old-token" 60000000000)
          { entries := [("k", "new-token", 60000000000)] }).2 "k" = some "new-token" :=
  ⟨rfl, by decide, memStore_compareAndDelete,
    ((Unlock_contract MemStore.client (newLock "k" "old-token" 60000000000)
      { entries := [("k", "new-token", 60000000000)] } [] rfl (by decide)).2.2.2.2.2.2.2
        MemStore.get memStore_compareAndDelete "new-token" (by decide) (by decide)).1,
    by decide⟩

/-- C3 fails as stated, twice over.  A stale handle that was already unlocked once: the
store still holds the new token and answers the second compare-and-delete with 0, yet
Unlock panics on the closed stop channel instead of returning ErrLockNotHold.  And a
fresh handle on a store that answers minus one with no error: Unlock returns nil although
the count reported is not positive. -/
theorem Unlock_contract_counterexample :
    Stale.first.1.1 = Outcome.returned (some Error.ErrLockNotHold) ∧
      MemStore.get Stale.first.2 "k" = some "new-token" ∧
      (MemStore.client.Eval Script.luaUnlock [Stale.first.1.2.key]
        [Arg.str Stale.first.1.2.value] Stale.first.2).1.Int64 = (0, none) ∧
      Stale.second.1.1 = Outcome.panicked ∧
      Stale.second.1.1 ≠ Outcome.returned (some Error.ErrLockNotHold) ∧
      (Lock.Unlock (Mock.client (Cmd.ofInt64 (-1, none)) : Cmdable Unit)
        (newLock "k" "token" 60000000000) ()).1.1 = Outcome.returned none ∧
      ¬ (0 : Int) < ((Mock.client (Cmd.ofInt64 (-1, none)) : Cmdable Unit).Eval
        Script.luaUnlock ["k"] [Arg.str "token"] ()).1.Int64.1 := by
  decide

/-- C4: Lock.Refresh evaluates the compare-and-extend script once, with the handle's key, its
token and its lease in milliseconds; it returns nil if and only if that call gave no error
and the value 1, ErrLockNotHold for a redis.Nil reply and for any value other than 1, and
every other error unchanged. -/
theorem Refresh_contract {σ : Type} (c : Cmdable σ) (l : Lock) (s : σ) (log : List Call) :
    (Lock.Refresh c.traced l (s, log)).2 =
        ((c.Eval Script.refreshLock [l.key]
            [Arg.str l.value, Arg.int64 (Duration.Milliseconds l.expiration)] s).2,
          log ++ [Call.Eval Script.refreshLock [l.key]
            [Arg.str l.value, Arg.int64 (Duration.Milliseconds l.expiration)]]) ∧
      (Lock.Refresh c l s).2 = (c.Eval Script.refreshLock [l.key]
        [Arg.str l.value, Arg.int64 (Duration.Milliseconds l.expiration)] s).2 ∧
      ((Lock.Refresh c l s).1 = none ↔
        (c.Eval Script.refreshLock [l.key]
          [Arg.str l.value, Arg.int64 (Duration.Milliseconds l.expiration)] s).1.Int64 =
            (1, none)) ∧
      (errors.Is (c.Eval Script.refreshLock [l.key]
          [Arg.str l.value, Arg.int64 (Duration.Milliseconds l.expiration)] s).1.Int64.2
          Error.Nil = true →
        (Lock.Refresh c l s).1 = some Error.ErrLockNotHold) ∧
      ((c.Eval Script.refreshLock [l.key]
          [Arg.str l.value, Arg.int64 (Duration.Milliseconds l.expiration)] s).1.Int64.2 = none →
        (c.Eval Script.refreshLock [l.key]
          [Arg.str l.value, Arg.int64 (Duration.Milliseconds l.expiration)] s).1.Int64.1 ≠ 1 →
        (Lock.Refresh c l s).1 = some Error.ErrLockNotHold) ∧
      (∀ e, (c.Eval Script.refreshLock [l.key]
          [Arg.str l.value, Arg.int64 (Duration.Milliseconds l.expiration)] s).1.Int64.2 =
            some e →
        errors.Is (some e) Error.Nil = false → (Lock.Refresh c l s).1 = some e) := by
  have hst : ∀ {τ : Type} (d : Cmdable τ) (t : τ), (Lock.Refresh d l t).2 =
      (d.Eval Script.refreshLock [l.key]
        [Arg.str l.value, Arg.int64 (Duration.Milliseconds l.expiration)] t).2 := by
    intro τ d t
    simp only [Lock.Refresh]
    split_ifs <;> rfl
  refine ⟨hst c.traced (s, log), hst c s, ?_, ?_, ?_, ?_⟩
  all_goals simp only [Lock.Refresh]
  all_goals generalize (c.Eval Script.refreshLock [l.key]
    [Arg.str l.value, Arg.int64 (Duration.Milliseconds l.expiration)] s).1.Int64 = reply
  all_goals obtain ⟨res, err⟩ := reply
  · cases err with
    | none => by_cases h1 : res = 1 <;> simp [errors.Is, h1]
    | some e => by_cases hn : e.Is Error.Nil = true <;> simp [errors.Is, hn]
  · intro h
    simp only at h
    simp [h]
  · intro h1 h2
    simp only at h1 h2
    simp [h1, h2, errors.Is]
  · intro e he hn
    simp only at he
    simp [he, hn]

/-- C4 on the in-memory store after the lease ran out and the key is gone: the call
signals redis.Nil and Refresh returns ErrLockNotHold. -/
theorem Refresh_contract_witness :
    errors.Is (MemStore.client.Eval Script.refreshLock ["k"]
        [Arg.str (newLock "k" "token" 60000000000).value,
          Arg.int64 (Duration.Milliseconds (newLock "k" "token" 60000000000).expiration)]
        { entries := [] }).1.Int64.2 Error.Nil = true ∧
      (Lock.Refresh MemStore.client (newLock "k" "token" 60000000000) { entries := [] }).1 =
        some Error.ErrLockNotHold ∧
      Duration.Milliseconds 60000000000 = 60000 :=
  ⟨by decide,
    (Refresh_contract MemStore.client (newLock "k" "token" 60000000000) { entries := [] }
      []).2.2.2.1 (by decide),
    by decide⟩

/-- C8 as amended: after a first Lock.Unlock of a freshly made handle has returned, the stop
channel is closed; a second Lock.Unlock still evaluates the compare-and-delete script once for
the same key and token and then panics in its deferred send on the closed channel, so it
never returns ErrLockNotHold. -/
theorem Unlock_second_call_panics {σ : Type} (c : Cmdable σ) (key value : String)
    (expiration : Duration) (s : σ) (log : List Call) :
    (∃ r, (Lock.Unlock c (newLock key value expiration) s).1.1 = Outcome.returned r) ∧
      (Lock.Unlock c (newLock key value expiration) s).1.2.unlock.closed = true ∧
      (Lock.Unlock c (Lock.Unlock c (newLock key value expiration) s).1.2
          (Lock.Unlock c (newLock key value expiration) s).2).1.1 = Outcome.panicked ∧
      (∀ r, (Lock.Unlock c (Lock.Unlock c (newLock key value expiration) s).1.2
          (Lock.Unlock c (newLock key value expiration) s).2).1.1 ≠ Outcome.returned r) ∧
      (Lock.Unlock c.traced (Lock.Unlock c (newLock key value expiration) s).1.2
          ((Lock.Unlock c (newLock key value expiration) s).2, log)).2 =
        ((c.Eval Script.luaUnlock [key] [Arg.str value]
            (Lock.Unlock c (newLock key value expiration) s).2).2,
          log ++ [Call.Eval Script.luaUnlock [key] [Arg.str value]]) := by
  have h2 : (Lock.Unlock c (Lock.Unlock c (newLock key value expiration) s).1.2
      (Lock.Unlock c (newLock key value expiration) s).2).1.1 = Outcome.panicked := rfl
  refine ⟨⟨_, rfl⟩, rfl, h2, ?_, rfl⟩
  intro r hr
  rw [h2] at hr
  exact Outcome.noConfusion hr

/-- C8 fails as stated: on the in-memory store TryLock hands out a handle and a first
Unlock returns nil; the store then answers the compare-and-delete of the second Unlock with
redis.Nil, yet the second Unlock panics instead of returning ErrLockNotHold. -/
theorem Unlock_second_call_counterexample :
    Replay.acquired.1 = (some Replay.handle, none) ∧
      Replay.first.1.1 = Outcome.returned none ∧
      (MemStore.client.Eval Script.luaUnlock [Replay.handle.key]
        [Arg.str Replay.handle.value] Replay.first.2).1.Int64.2 = some Error.Nil ∧
      Replay.second.1.1 = Outcome.panicked ∧
      Replay.second.1.1 ≠ Outcome.returned (some Error.ErrLockNotHold) := by
  decide

/-! ## Runs of `Lock` on a contended key -/

theorem rounds_cons (key value : String) (expiration : Duration) (d : Duration)
    (ds : List Duration) :
    Call.rounds key value expiration (d :: ds) =
      [Call.acquire key value expiration, Call.Next, Call.Sleep d, Call.Timer d] ++
        Call.rounds key value expiration ds := by
  simp [Call.rounds]

theorem rounds_evals (key value : String) (expiration : Duration) (ds : List Duration) :
    (Call.rounds key value expiration ds).filter Call.isEval =
      List.replicate (ds.length + 1) (Call.acquire key value expiration) := by
  induction ds with
  | nil => simp [Call.rounds, Call.isEval, Call.acquire, List.filter]
  | cons d ds ih =>
    rw [rounds_cons, List.filter_append, ih]
    simp [Call.isEval, Call.acquire, List.filter, List.replicate_succ]

theorem rounds_nexts (key value : String) (expiration : Duration) (ds : List Duration) :
    (Call.rounds key value expiration ds).count Call.Next = ds.length + 1 := by
  induction ds with
  | nil => simp [Call.rounds, Call.acquire]
  | cons d ds ih =>
    rw [rounds_cons, List.count_append, ih]
    simp [Call.acquire, List.count_cons]
    omega

theorem loop_contended {σ : Type} (c : Cmdable σ) (rt : Runtime σ) (retry : RetryStrategy σ)
    (key value : String) (expiration : Duration) (Inv : σ → Prop) (left : σ → Nat)
    (h : Contended c rt retry key value expiration Inv left) :
    ∀ (n : Nat) (s : σ) (log : List Call) (fuel : Nat), Inv s → left s = n → n + 1 ≤ fuel →
      ∃ (ds : List Duration) (sf : σ), ds.length = n ∧
        Client.Lock.loop c.traced rt.traced retry.traced key expiration value fuel (s, log) =
          some ((none, some Error.ErrFailedToPreemptLock),
            (sf, log ++ Call.rounds key value expiration ds)) ∧
        Client.Lock.loop c rt retry key expiration value fuel s =
          some ((none, some Error.ErrFailedToPreemptLock), sf) := by
  intro n
  induction n with
  | zero =>
    intro s log fuel hs hl hf
    obtain ⟨f, rfl⟩ : ∃ f, fuel = f + 1 := ⟨fuel - 1, by omega⟩
    obtain ⟨e1, e2, e3⟩ := h.eval s hs
    have hstop := h.next_stop _ e2 (by rw [e3]; exact hl)
    refine ⟨[], (retry.Next (c.Eval Script.luaLock [key]
      [Arg.str value, Arg.duration expiration] s).2).2, rfl, ?_, ?_⟩
    · simp [Client.Lock.loop, Cmdable.traced, RetryStrategy.traced, e1, hstop, errors.Is,
        Call.rounds, Call.acquire]
    · simp [Client.Lock.loop, e1, hstop, errors.Is]
  | succ n ih =>
    intro s log fuel hs hl hf
    obtain ⟨f, rfl⟩ : ∃ f, fuel = f + 1 := ⟨fuel - 1, by omega⟩
    obtain ⟨e1, e2, e3⟩ := h.eval s hs
    obtain ⟨n1, n2, n3⟩ := h.next_more _ e2 (by rw [e3]; omega)
    obtain ⟨p1, p2⟩ := h.sleep (retry.Next (c.Eval Script.luaLock [key]
      [Arg.str value, Arg.duration expiration] s).2).1.1 _ n2
    obtain ⟨w1, w2, w3⟩ := h.select (retry.Next (c.Eval Script.luaLock [key]
      [Arg.str value, Arg.duration expiration] s).2).1.1 _ p1
    obtain ⟨ds, sf, hlen, ht, hu⟩ := ih _
      (log ++ [Call.acquire key value expiration, Call.Next,
        Call.Sleep (retry.Next (c.Eval Script.luaLock [key]
          [Arg.str value, Arg.duration expiration] s).2).1.1,
        Call.Timer (retry.Next (c.Eval Script.luaLock [key]
          [Arg.str value, Arg.duration expiration] s).2).1.1]) f w2
      (by rw [w3, p2]; omega) (by omega)
    refine ⟨(retry.Next (c.Eval Script.luaLock [key]
      [Arg.str value, Arg.duration expiration] s).2).1.1 :: ds, sf, by simp [hlen], ?_, ?_⟩
    · rw [rounds_cons, ← List.append_assoc, ← ht]
      simp [Client.Lock.loop, Cmdable.traced, RetryStrategy.traced, Runtime.traced, e1, n1, w1,
        errors.Is, Call.acquire]
    · rw [← hu]
      simp [Client.Lock.loop, e1, n1, w1, errors.Is]

/-- C5: on a key that stays contended, with a context that never ends and a strategy that
returns exactly n intervals before it stops, Lock makes n+1 acquisition attempts, all with
the one token, asks the strategy once after each of them, and returns
ErrFailedToPreemptLock with no handle. -/
theorem Lock_contended_attempts {σ : Type} (c : Cmdable σ) (rt : Runtime σ)
    (retry : RetryStrategy σ) (u : UUID) (key : String) (expiration timeout : Duration)
    (Inv : σ → Prop) (left : σ → Nat)
    (h : Contended c rt retry key u.String expiration Inv left)
    (s : σ) (hs : Inv s) (fuel : Nat) (hfuel : left s + 1 ≤ fuel) (log : List Call) :
    ∃ (ds : List Duration) (sf : σ), ds.length = left s ∧
      Client.Lock c rt u key expiration retry timeout fuel s =
        some ((none, some Error.ErrFailedToPreemptLock), sf) ∧
      Client.Lock c.traced rt.traced u key expiration retry.traced timeout fuel (s, log) =
        some ((none, some Error.ErrFailedToPreemptLock),
          (sf, log ++ Call.rounds key u.String expiration ds)) ∧
      (Call.rounds key u.String expiration ds).filter Call.isEval =
        List.replicate (left s + 1) (Call.acquire key u.String expiration) ∧
      (Call.rounds key u.String expiration ds).count Call.Next = left s + 1 := by
  obtain ⟨ds, sf, hlen, ht, hu⟩ :=
    loop_contended c rt retry key u.String expiration Inv left h (left s) s log fuel hs rfl hfuel
  refine ⟨ds, sf, hlen, hu, ht, ?_, ?_⟩
  · rw [rounds_evals, hlen]
  · rw [rounds_nexts, hlen]

theorem sim_contended (key value : String) (expiration : Duration) :
    Contended Sim.contended Sim.runtime Sim.retry key value expiration
      (fun s => s.doneAt = none) (fun s => s.intervals.length) where
  eval := by
    intro s hs
    simp [Sim.contended, Sim.endedBy, hs, Cmd.ofInt64]
  next_more := by
    intro s hs hpos
    cases hi : s.intervals with
    | nil => simp [hi] at hpos
    | cons d ds => simp [Sim.retry, hi, hs]
  next_stop := by
    intro s _ hz
    have hi : s.intervals = [] := List.length_eq_zero.mp hz
    simp [Sim.retry, hi]
  sleep := by
    intro d s hs
    simp [Sim.runtime, hs]
  select := by
    intro d s hs
    simp [Sim.runtime, Sim.endedBy, hs]

/-- C5 on the simulated world: a strategy with two intervals, hence three attempts. -/
theorem Lock_contended_attempts_witness :
    Contended Sim.contended Sim.runtime Sim.retry "k" UUID.zero.String 60000000000
        (fun s => s.doneAt = none) (fun s => s.intervals.length) ∧
      ∃ (ds : List Duration) (sf : Sim), ds.length = 2 ∧
        Client.Lock Sim.contended Sim.runtime UUID.zero "k" 60000000000 Sim.retry 1000000000 3
            { intervals := [1000000000, 2000000000], now := 0, doneAt := none,
              ctxErr := Error.Canceled, latency := 0 } =
          some ((none, some Error.ErrFailedToPreemptLock), sf) ∧
        Client.Lock Sim.contended.traced Sim.runtime.traced UUID.zero "k" 60000000000
            Sim.retry.traced 1000000000 3
            ({ intervals := [1000000000, 2000000000], now := 0, doneAt := none,
               ctxErr := Error.Canceled, latency := 0 }, []) =
          some ((none, some Error.ErrFailedToPreemptLock),
            (sf, [] ++ Call.rounds "k" UUID.zero.String 60000000000 ds)) ∧
        (Call.rounds "k" UUID.zero.String 60000000000 ds).filter Call.isEval =
          List.replicate (2 + 1) (Call.acquire "k" UUID.zero.String 60000000000) ∧
        (Call.rounds "k" UUID.zero.String 60000000000 ds).count Call.Next = 2 + 1 :=
  ⟨sim_contended "k" UUID.zero.String 60000000000,
    Lock_contended_attempts Sim.contended Sim.runtime Sim.retry UUID.zero "k" 60000000000
      1000000000 (fun s => s.doneAt = none) (fun s => s.intervals.length)
      (sim_contended "k" UUID.zero.String 60000000000)
      { intervals := [1000000000, 2000000000], now := 0, doneAt := none,
        ctxErr := Error.Canceled, latency := 0 } rfl 3 (by decide) []⟩

/-- C6 at its failing input: the strategy has one interval of 1s, a round trip takes 0.2s
and the context reaches its deadline at 2.3s, during the second attempt.  That attempt is
answered with context.DeadlineExceeded, the strategy then stops, and Lock returns
ErrFailedToPreemptLock although ctx.Err() is DeadlineExceeded. -/
theorem Lock_deadline_then_stop :
    (Client.Lock Sim.contended Sim.runtime UUID.zero "k" 60000000000 Sim.retry 1000000000 5
        { intervals := [1000000000], now := 0, doneAt := some 2300000000,
          ctxErr := Error.DeadlineExceeded, latency := 200000000 }).map Prod.fst =
      some (none, some Error.ErrFailedToPreemptLock) ∧
    (Client.Lock Sim.contended Sim.runtime UUID.zero "k" 60000000000 Sim.retry 1000000000 5
        { intervals := [1000000000], now := 0, doneAt := some 2300000000,
          ctxErr := Error.DeadlineExceeded, latency := 200000000 }).map
        (fun r => Sim.runtime.Err r.2) =
      some (some Error.DeadlineExceeded) := by
  decide

/-- C10 at its failing input: one interval of 1s on a contended key, no cancellation, a
store that answers at once.  Lock asks for two waits of 1s, a Sleep and a timer, and the
clock ends at 2s, twice the interval the strategy returned. -/
theorem Lock_waits_twice :
    Client.Lock Sim.contended.traced Sim.runtime.traced UUID.zero "k" 60000000000
        Sim.retry.traced 1000000000 5
        ({ intervals := [1000000000], now := 0, doneAt := none, ctxErr := Error.Canceled,
           latency := 0 }, []) =
      some ((none, some Error.ErrFailedToPreemptLock),
        ({ intervals := [], now := 2000000000, doneAt := none, ctxErr := Error.Canceled,
           latency := 0 },
          [Call.acquire "k" UUID.zero.String 60000000000, Call.Next, Call.Sleep 1000000000,
            Call.Timer 1000000000, Call.acquire "k" UUID.zero.String 60000000000,
            Call.Next])) := by
  decide

/-- C9 at its failing input: every Refresh times out and the select takes the ticker case
twice in a row.  The first pass fills the retry channel, the second sends on the full
channel and blocks for good. -/
theorem AutoRefresh_blocks_on_full_channel :
    (Lock.AutoRefresh (Mock.client (Cmd.ofInt64 (0, some Error.DeadlineExceeded)) : Cmdable Unit)
        (newLock "k" UUID.zero.String 60000000000) 1000000000 1000000000
        [Case.tick] ()).1 = (none, { cap := 1, buf := 1, closed := false }) ∧
    (Lock.AutoRefresh (Mock.client (Cmd.ofInt64 (0, some Error.DeadlineExceeded)) : Cmdable Unit)
        (newLock "k" UUID.zero.String 60000000000) 1000000000 1000000000
        [Case.tick, Case.tick] ()).1 =
      (some Outcome.blocked, { cap := 1, buf := 1, closed := false }) := by
  decide

/-- C7 as amended: a pass of SingleFlightLock that receives the result of an execution run
for another caller drops that result and goes round again, so the passes that received a
shared result change nothing and a caller that only ever receives shared results has not
returned; SingleFlightLock returns the result of the execution of its own closure, or the
error of its context once that is done. -/
theorem SingleFlightLock_own_execution_only {σ : Type} (c : Cmdable σ) (rt : Runtime σ)
    (u : UUID) (key : String) (expiration : Duration) (retry : RetryStrategy σ)
    (timeout : Duration) (fuel : Nat) (passes : List Flight) (s : σ) :
    Client.SingleFlightLock c rt u key expiration retry timeout fuel passes s =
        Client.SingleFlightLock c rt u key expiration retry timeout fuel
          (passes.filter fun p => !p.isShared) s ∧
      (passes.all Flight.isShared = true →
        Client.SingleFlightLock c rt u key expiration retry timeout fuel passes s = none) ∧
      (∀ val err, Client.SingleFlightLock c rt u key expiration retry timeout fuel
          (Flight.shared val err :: passes) s =
        Client.SingleFlightLock c rt u key expiration retry timeout fuel passes s) ∧
      Client.SingleFlightLock c rt u key expiration retry timeout fuel
          (Flight.leader :: passes) s =
        (Client.Lock c rt u key expiration retry timeout fuel s).map
          (fun res => (if res.1.2 ≠ none then (none, res.1.2) else (res.1.1, none), res.2)) ∧
      Client.SingleFlightLock c rt u key expiration retry timeout fuel
          (Flight.done :: passes) s = some ((none, rt.Err s), s) := by
  refine ⟨?_, ?_, fun _ _ => rfl, ?_, rfl⟩
  · induction passes with
    | nil => rfl
    | cons p ps ih =>
      cases p with
      | leader => simp [List.filter, Flight.isShared, Client.SingleFlightLock]
      | shared val err =>
        simp only [List.filter, Flight.isShared, Client.SingleFlightLock]
        exact ih
      | done => simp [List.filter, Flight.isShared, Client.SingleFlightLock]
  · induction passes with
    | nil => intro _; rfl
    | cons p ps ih =>
      cases p with
      | leader => simp [Flight.isShared]
      | shared val err =>
        intro hall
        simp only [List.all_cons, Flight.isShared, Bool.true_and] at hall
        simp only [Client.SingleFlightLock]
        exact ih hall
      | done => simp [Flight.isShared]
  · simp only [Client.SingleFlightLock]
    cases Client.Lock c rt u key expiration retry timeout fuel s with
    | none => rfl
    | some res => by_cases h : res.1.2 = none <;> simp [h]

/-- C7 fails as stated: a caller joins an execution in flight for the key, and that
execution completes with a handle.  The caller has not returned; on its next pass its own
closure runs against the still contended store, makes an acquisition attempt of its own,
and the caller returns ErrFailedToPreemptLock instead of the handle. -/
theorem SingleFlightLock_shared_result_counterexample :
    Client.SingleFlightLock Sim.contended Sim.runtime UUID.zero "k" 60000000000 Sim.retry
        1000000000 5 [Flight.shared (some (newLock "k" UUID.one.String 60000000000)) none]
        { intervals := [], now := 0, doneAt := none, ctxErr := Error.Canceled, latency := 0 } =
      none ∧
    Client.SingleFlightLock Sim.contended.traced Sim.runtime.traced UUID.zero "k" 60000000000
        Sim.retry.traced 1000000000 5
        [Flight.shared (some (newLock "k" UUID.one.String 60000000000)) none, Flight.leader]
        ({ intervals := [], now := 0, doneAt := none, ctxErr := Error.Canceled, latency := 0 },
          []) =
      some ((none, some Error.ErrFailedToPreemptLock),
        ({ intervals := [], now := 0, doneAt := none, ctxErr := Error.Canceled, latency := 0 },
          [Call.acquire "k" UUID.zero.String 60000000000, Call.Next])) := by
  decide

/-! ## Further properties of `Lock` -/

/-- An attempt answered with an error that is not a deadline-exceeded one ends Lock at
once: that error comes back unchanged, with no handle, after this one call to the store
and without a call to the retry strategy. -/
theorem Lock_other_error {σ : Type} (c : Cmdable σ) (rt : Runtime σ)
    (retry : RetryStrategy σ) (u : UUID) (key : String) (expiration timeout : Duration)
    (fuel : Nat) (s : σ) (log : List Call) (e : Error)
    (herr : (c.Eval Script.luaLock [key] [Arg.str u.String, Arg.duration expiration] s).1.Bool.2 =
      some e)
    (hne : errors.Is (some e) Error.DeadlineExceeded = false) :
    Client.Lock c.traced rt.traced u key expiration retry.traced timeout (fuel + 1) (s, log) =
      some ((none, some e),
        ((c.Eval Script.luaLock [key] [Arg.str u.String, Arg.duration expiration] s).2,
          log ++ [Call.acquire key u.String expiration])) := by
  simp [Client.Lock, Client.Lock.loop, Cmdable.traced, herr, hne, Call.acquire]

/-- A network error on the first attempt, on a mock store: Lock returns it as it is. -/
theorem Lock_other_error_witness :
    Client.Lock (Mock.client (Cmd.ofInt64 (0, some (Error.other "network error")))).traced
        Sim.runtime.traced UUID.zero "k" 60000000000 Sim.retry.traced 1000000000 (0 + 1)
        ({ intervals := [1000000000], now := 0, doneAt := none, ctxErr := Error.Canceled,
           latency := 0 }, []) =
      some ((none, some (Error.other "network error")),
        ({ intervals := [1000000000], now := 0, doneAt := none, ctxErr := Error.Canceled,
           latency := 0 },
          [] ++ [Call.acquire "k" UUID.zero.String 60000000000])) :=
  Lock_other_error (Mock.client (Cmd.ofInt64 (0, some (Error.other "network error"))))
    Sim.runtime Sim.retry UUID.zero "k" 60000000000 1000000000 0
    { intervals := [1000000000], now := 0, doneAt := none, ctxErr := Error.Canceled,
      latency := 0 } [] (Error.other "network error") rfl rfl

/-- An attempt answered with acquired and no error ends Lock with a handle for the
requested key and lease whose token is the one sent to the store. -/
theorem Lock_acquired {σ : Type} (c : Cmdable σ) (rt : Runtime σ)
    (retry : RetryStrategy σ) (u : UUID) (key : String) (expiration timeout : Duration)
    (fuel : Nat) (s : σ)
    (hok : (c.Eval Script.luaLock [key] [Arg.str u.String, Arg.duration expiration] s).1.Bool =
      (true, none)) :
    Client.Lock c rt u key expiration retry timeout (fuel + 1) s =
      some ((some (newLock key u.String expiration), none),
        (c.Eval Script.luaLock [key] [Arg.str u.String, Arg.duration expiration] s).2) := by
  simp [Client.Lock, Client.Lock.loop, hok, errors.Is]

/-- A first attempt that acquires, on a mock store. -/
theorem Lock_acquired_witness :
    Client.Lock (Mock.client (Cmd.ofInt64 (1, none))) Sim.runtime UUID.zero "k" 60000000000
        Sim.retry 1000000000 (0 + 1)
        { intervals := [1000000000], now := 0, doneAt := none, ctxErr := Error.Canceled,
          latency := 0 } =
      some ((some (newLock "k" UUID.zero.String 60000000000), none),
        { intervals := [1000000000], now := 0, doneAt := none, ctxErr := Error.Canceled,
          latency := 0 }) :=
  Lock_acquired (Mock.client (Cmd.ofInt64 (1, none))) Sim.runtime Sim.retry UUID.zero "k"
    60000000000 1000000000 0
    { intervals := [1000000000], now := 0, doneAt := none, ctxErr := Error.Canceled,
      latency := 0 } rfl

/-- On a contended run the waits Lock asks for add up to twice the intervals returned. -/
theorem rounds_waited (key value : String) (expiration : Duration) (ds : List Duration) :
    ((Call.rounds key value expiration ds).map Call.waited).sum = 2 * ds.sum := by
  induction ds with
  | nil => simp [Call.rounds, Call.acquire, Call.waited]
  | cons d ds ih =>
    rw [rounds_cons, List.map_append, List.sum_append, ih]
    simp [Call.acquire, Call.waited]
    ring

/-- On a contended run, as in C5, the Sleep and the timer wait of every round both take
the interval the strategy returned: the waits Lock asks for add up to twice the sum of the
intervals. -/
theorem Lock_contended_waits {σ : Type} (c : Cmdable σ) (rt : Runtime σ)
    (retry : RetryStrategy σ) (u : UUID) (key : String) (expiration timeout : Duration)
    (Inv : σ → Prop) (left : σ → Nat)
    (h : Contended c rt retry key u.String expiration Inv left)
    (s : σ) (hs : Inv s) (fuel : Nat) (hfuel : left s + 1 ≤ fuel) :
    ∃ (ds : List Duration) (sf : σ),
      Client.Lock c.traced rt.traced u key expiration retry.traced timeout fuel (s, []) =
        some ((none, some Error.ErrFailedToPreemptLock),
          (sf, Call.rounds key u.String expiration ds)) ∧
      ((Call.rounds key u.String expiration ds).map Call.waited).sum = 2 * ds.sum := by
  obtain ⟨ds, sf, _, ht, _⟩ :=
    loop_contended c rt retry key u.String expiration Inv left h (left s) s [] fuel hs rfl hfuel
  exact ⟨ds, sf, by simpa using ht, rounds_waited key u.String expiration ds⟩

/-- The per-attempt timeout reaches nothing: Lock gives the same result for any two. -/
theorem Lock_timeout_unused {σ : Type} (c : Cmdable σ) (rt : Runtime σ)
    (retry : RetryStrategy σ) (u : UUID) (key : String) (expiration t1 t2 : Duration)
    (fuel : Nat) (s : σ) :
    Client.Lock c rt u key expiration retry t1 fuel s =
      Client.Lock c rt u key expiration retry t2 fuel s := rfl

/-! ## Further properties of `AutoRefresh` -/

/-- With the retry channel already holding a signal, a pass on the ticker whose Refresh
times out blocks on the send, while a pass on the retry channel first takes the signal and
goes on with the channel full again. -/
theorem AutoRefresh_full_channel {σ : Type} (c : Cmdable σ) (l : Lock) (rest : List Case)
    (s : σ) (hto : errors.Is (Lock.Refresh c l s).1 Error.DeadlineExceeded = true) :
    Lock.AutoRefresh.loop c l (Case.tick :: rest) { cap := 1, buf := 1, closed := false } s =
        ((some Outcome.blocked, { cap := 1, buf := 1, closed := false }),
          (Lock.Refresh c l s).2) ∧
      Lock.AutoRefresh.loop c l (Case.retry :: rest) { cap := 1, buf := 1, closed := false } s =
        Lock.AutoRefresh.loop c l rest { cap := 1, buf := 1, closed := false }
          (Lock.Refresh c l s).2 := by
  constructor
  · simp [Lock.AutoRefresh.loop, Lock.AutoRefresh.body, hto, Chan.send]
  · simp [Lock.AutoRefresh.loop, Lock.AutoRefresh.body, hto, Chan.send, Chan.recv]

end RedisLock
